import Mathlib

/-!
# Verification of the generic-autoscaler reconciliation engine

Shallow embedding of `src/generic_autoscaler/controller.py` (classes
`PolicyEngine`, `SafetyManager`, and the per-scaler reconcile pipeline of
`GeneralScalerController`), together with theorems settling the frozen
claims about the natural-language specification.

Modelling conventions:
* Python `float` values (metric samples, costs, timestamps) are modelled as
  exact rationals `ℚ`; the float literals `0.5` and `0.8` of the source are
  the rationals `1/2` and `4/5`.
* Python `int` is `ℤ`.
* Configuration dictionaries are structures whose fields carry the default
  that the corresponding `dict.get(key, default)` call supplies, so a
  missing key is the same as a field holding the default value.
* Fallible code is `Option`-valued: `none` models an uncaught Python
  exception escaping the function.
* The cooldown dictionary `SafetyManager.last_scale_operations` is an
  association list; `List.lookup` returns the most recent binding, which
  matches dictionary assignment observationally.
-/

namespace GenericAutoscaler

/-- Python `int(x)` applied to a rational: truncation toward zero
(floor for non-negative arguments, ceiling for negative ones). -/
def truncQ (q : ℚ) : ℤ :=
  if 0 ≤ q then ⌊q⌋ else ⌈q⌉

/-- Aggregation `sum(metrics) / len(metrics) if metrics else 0`
(controller.py lines 68 and 86). -/
def mean (metrics : List ℚ) : ℚ :=
  if metrics = [] then 0 else metrics.sum / (metrics.length : ℚ)

/-- The `policy` dictionary. Field values are what
`policy_config.get(key, default)` yields (controller.py lines 54, 67, 85):
a missing key behaves as the default recorded here. -/
structure PolicyConfig where
  type : String := "slo"
  sloTarget : ℚ := 80
  maxCostPerReplica : ℚ := 5

/-- The scaler spec fields read by the policy engine
(`scaler_config.get('minReplicas', 1)` / `('maxReplicas', 10)`,
controller.py lines 75-76, 89, 104). -/
structure ScalerConfig where
  minReplicas : ℤ := 1
  maxReplicas : ℤ := 10

/-- The `safety` dictionary (controller.py lines 121-122, 139). -/
structure SafetyConfig where
  maxScaleRate : ℤ := 2
  scaleUpCooldown : String := "5m"
  scaleDownCooldown : String := "5m"

/-- Embeds `PolicyEngine._slo_based_scaling` (controller.py lines 64-80). -/
def sloBasedScaling (current : ℤ) (metrics : List ℚ)
    (policy : PolicyConfig) (scaler : ScalerConfig) : ℤ :=
  let target := policy.sloTarget
  let currentMetric := mean metrics
  let ratio := if 0 < target then currentMetric / target else 1
  let desired := truncQ ((current : ℚ) * ratio)
  max scaler.minReplicas (min scaler.maxReplicas desired)

/-- Embeds `PolicyEngine._cost_aware_scaling` (controller.py lines 82-109).

Source line 93 (`if (current_metric / max_cost) > desired_by_ratio`) is
missing its trailing colon, a syntactic defect the repository's spec
documents under Open Questions 3; the indentation makes the intent
unambiguous (the increment on line 94 is guarded by that conditional), and
this embedding follows that evident intent. -/
def costAwareScaling (current : ℤ) (metrics : List ℚ)
    (policy : PolicyConfig) (scaler : ScalerConfig) : ℤ :=
  let maxCost := policy.maxCostPerReplica
  let currentMetric := mean metrics
  let costPerReplica := if 0 < current then currentMetric / (current : ℚ) else 0
  if maxCost < costPerReplica then
    let desiredByRatio := truncQ (currentMetric / maxCost)
    let desiredByRatio :=
      if (desiredByRatio : ℚ) < currentMetric / maxCost then desiredByRatio + 1
      else desiredByRatio
    min desiredByRatio scaler.maxReplicas
  else if costPerReplica < maxCost * (1/2) then
    max (truncQ (currentMetric / (maxCost * (4/5)))) scaler.minReplicas
  else
    current

/-- Embeds `PolicyEngine.calculate_desired_replicas` (controller.py lines 46-62):
dispatch on `policy_config.get('type', 'slo')`; unknown types return
`current_replicas`. -/
def calculate_desired_replicas (current : ℤ) (metrics : List ℚ)
    (policy : PolicyConfig) (scaler : ScalerConfig) : ℤ :=
  if policy.type = "slo" then sloBasedScaling current metrics policy scaler
  else if policy.type = "cost" then costAwareScaling current metrics policy scaler
  else current

/-! ## Python `int(str)` and `SafetyManager._parse_duration` -/

/-- Digits of a Python base-10 integer literal after the first digit:
further digits, with single underscores allowed between digits.
Returns the accumulated value, or `none` when `int()` raises `ValueError`. -/
def digitsTail : List Char → ℤ → Option ℤ
  | [], acc => some acc
  | c :: rest, acc =>
    if c.isDigit then digitsTail rest (acc * 10 + ((c.toNat : ℤ) - 48))
    else if c = '_' then
      match rest with
      | [] => none
      | c2 :: rest2 =>
        if c2.isDigit then digitsTail rest2 (acc * 10 + ((c2.toNat : ℤ) - 48))
        else none
    else none

/-- The unsigned-digit part of Python `int(str)`: one digit, then
`digitsTail`. -/
def parseDigits : List Char → Option ℤ
  | [] => none
  | c :: rest =>
    if c.isDigit then digitsTail rest ((c.toNat : ℤ) - 48) else none

/-- Python `int(s)` for a string argument in base 10: optional surrounding
whitespace, optional sign, then digits (single underscores permitted
between digits). `none` models the `ValueError` that malformed strings
raise. -/
def pyInt (s : String) : Option ℤ :=
  let cs := ((s.data.dropWhile Char.isWhitespace).reverse.dropWhile Char.isWhitespace).reverse
  match cs with
  | [] => none
  | c :: rest =>
    if c = '+' then parseDigits rest
    else if c = '-' then (parseDigits rest).map (fun z => -z)
    else parseDigits (c :: rest)

/-- Embeds `units.get(unit, 1)` with `units = {'s': 1, 'm': 60, 'h': 3600,
'd': 86400}` (controller.py line 163 and 167): unknown units fall back to
factor 1. -/
def unitFactor (c : Char) : ℤ :=
  if c = 's' then 1 else if c = 'm' then 60 else if c = 'h' then 3600
  else if c = 'd' then 86400 else 1

/-- Embeds `SafetyManager._parse_duration` (controller.py lines 161-170):
`unit = s[-1]` (an uncaught `IndexError`, modelled as `none`, when `s` is
empty), `value = int(s[:-1])` (a `ValueError` is caught and yields 300),
result `value * units.get(unit, 1)`. -/
def parse_duration (s : String) : Option ℤ :=
  match s.data.getLast? with
  | none => none
  | some u =>
    match pyInt (String.mk s.data.dropLast) with
    | none => some 300
    | some v => some (v * unitFactor u)

/-- Base-10 value of a list of digit characters. -/
def decimalVal (ds : List Char) : ℤ :=
  ds.foldl (fun a c => a * 10 + ((c.toNat : ℤ) - 48)) 0

/-- Modelled from the spec's duration grammar `^([0-9]+)(s|m|h|d)$`
(spec §6, "Duration grammar"); used to compare the source's parser
against the grammar the spec states. -/
def matchesDurationGrammar (s : String) : Bool :=
  match s.data.getLast? with
  | none => false
  | some u =>
    !s.data.dropLast.isEmpty && s.data.dropLast.all Char.isDigit &&
      (u == 's' || u == 'm' || u == 'h' || u == 'd')

/-! ## SafetyManager state, cooldowns and rate limits -/

/-- The scale direction string computed on controller.py line 279; only
`'up'` and `'down'` are ever passed to `can_scale`. -/
inductive Direction where
  | up : Direction
  | down : Direction

/-- The config entry selected by
`f'scale{direction.capitalize()}Cooldown'` (controller.py line 121):
`'up' → scaleUpCooldown`, `'down' → scaleDownCooldown`. -/
def cooldownFor (cfg : SafetyConfig) : Direction → String
  | Direction.up => cfg.scaleUpCooldown
  | Direction.down => cfg.scaleDownCooldown

/-- State `SafetyManager.last_scale_operations`: a dictionary from scaler name
to the timestamp of the last recorded scale, modelled as an association
list whose most recent binding comes first. -/
def Ledger : Type := List (String × ℚ)

/-- Embeds `self.last_scale_operations.get(scaler_name, 0)`
(controller.py line 124). -/
def ledgerGet (l : Ledger) (name : String) : ℚ :=
  ((l : List (String × ℚ)).lookup name).getD 0

/-- Embeds `SafetyManager.can_scale` (controller.py lines 117-133): parse the
cooldown for the direction, read the ledger (0 when absent), and return
`False` iff `now - last < cooldown`. `none` models the uncaught
`IndexError` that `_parse_duration` raises on an empty cooldown string. -/
def can_scale (l : Ledger) (name : String) (cfg : SafetyConfig)
    (dir : Direction) (now : ℚ) : Option Bool :=
  match parse_duration (cooldownFor cfg dir) with
  | none => none
  | some cooldownSeconds =>
    let timeSinceLast := now - ledgerGet l name
    some (if timeSinceLast < (cooldownSeconds : ℚ) then false else true)

/-- Embeds `SafetyManager.apply_rate_limits` (controller.py lines 135-154). -/
def apply_rate_limits (current desired : ℤ) (cfg : SafetyConfig) : ℤ :=
  let maxRate := cfg.maxScaleRate
  if current < desired then min (current + maxRate) desired
  else if desired < current then max (current - maxRate) desired
  else desired

/-- Embeds `SafetyManager.record_scale_operation` (controller.py lines 156-159):
`ledger[name] = now`. -/
def record_scale_operation (l : Ledger) (name : String) (now : ℚ) : Ledger :=
  ((name, now) :: (l : List (String × ℚ)) : List (String × ℚ))

/-! ## The per-scaler reconcile pipeline -/

/-- Embeds `deployment.spec.replicas or 1` (controller.py line 255): Python `or`
replaces the falsy values `None` and `0` by `1` and keeps any other
integer. -/
def pyOr1 : Option ℤ → ℤ
  | none => 1
  | some n => if n = 0 then 1 else n

/-- The inputs one `_reconcile_scaler` invocation draws from the outside
world: the target read (`readOk = false` models a raised `ApiException`,
`replicas` is `deployment.spec.replicas`), the collected metric samples,
the scaler's spec sections, the current wall-clock time, and whether the
replica patch call succeeds. -/
structure ReconcileEnv where
  readOk : Bool
  replicas : Option ℤ
  metrics : List ℚ
  policy : PolicyConfig
  scaler : ScalerConfig
  safety : SafetyConfig
  now : ℚ
  patchOk : Bool

/-- Observable outcome of one `_reconcile_scaler` invocation: the cooldown
ledger afterwards, and the replica count patched onto the target
(`none` when no successful mutation was issued). -/
structure ReconcileResult where
  ledger : Ledger
  patched : Option ℤ

/-- Embeds `GeneralScalerController._reconcile_scaler` (controller.py
lines 231-310), restricted to its ledger and patch effects: early return
on read failure or empty metrics, the `desired == current` fast path, the
cooldown gate (a `can_scale` result other than `some true` issues no
mutation), rate limiting, and the mutation step, which records the scale
operation only after `_scale_deployment` returns without raising. -/
def reconcileScaler (env : ReconcileEnv) (l : Ledger) (name : String) :
    ReconcileResult :=
  if env.readOk = false then ⟨l, none⟩
  else if env.metrics = [] then ⟨l, none⟩
  else
    let current := pyOr1 env.replicas
    let desired := calculate_desired_replicas current env.metrics env.policy env.scaler
    if desired = current then ⟨l, none⟩
    else
      let dir := if current < desired then Direction.up else Direction.down
      if can_scale l name env.safety dir env.now = some true then
        let limited := apply_rate_limits current desired env.safety
        if limited = current then ⟨l, none⟩
        else if env.patchOk then ⟨record_scale_operation l name env.now, some limited⟩
        else ⟨l, none⟩
      else ⟨l, none⟩

/-! ## Helper lemmas -/

theorem digitsTail_all_digits : ∀ (l : List Char) (acc : ℤ),
    (∀ c ∈ l, c.isDigit) →
    digitsTail l acc = some (l.foldl (fun a c => a * 10 + ((c.toNat : ℤ) - 48)) acc)
  | [], _, _ => rfl
  | c :: rest, acc, h => by
    have hc : c.isDigit := h c (List.mem_cons_self c rest)
    rw [digitsTail.eq_def]
    simp only [if_pos hc]
    rw [digitsTail_all_digits rest _ (fun x hx => h x (List.mem_cons_of_mem c hx))]
    rfl

theorem parseDigits_all_digits (c : Char) (rest : List Char)
    (h : ∀ x ∈ c :: rest, x.isDigit) :
    parseDigits (c :: rest) = some (decimalVal (c :: rest)) := by
  have hc : c.isDigit := h c (List.mem_cons_self c rest)
  rw [parseDigits, if_pos hc,
    digitsTail_all_digits rest _ (fun x hx => h x (List.mem_cons_of_mem c hx))]
  simp [decimalVal, List.foldl]

theorem dropWhile_eq_self_of_forall {p : Char → Bool} :
    ∀ {l : List Char}, (∀ c ∈ l, p c = false) → l.dropWhile p = l
  | [], _ => rfl
  | c :: rest, h => by
    have hpc : p c = false := h c (List.mem_cons_self c rest)
    simp [List.dropWhile, hpc]

theorem not_ws_of_isDigit {c : Char} (h : c.isDigit = true) :
    c.isWhitespace = false := by
  rcases hw : c.isWhitespace with _ | _
  · rfl
  · exfalso
    simp only [Char.isWhitespace, Bool.or_eq_true, decide_eq_true_eq] at hw
    rcases hw with ((h1 | h1) | h1) | h1 <;> subst h1 <;> exact absurd h (by decide)

theorem pyInt_all_digits (c : Char) (rest : List Char)
    (h : ∀ x ∈ c :: rest, x.isDigit) :
    pyInt (String.mk (c :: rest)) = some (decimalVal (c :: rest)) := by
  have hws : ∀ x ∈ c :: rest, x.isWhitespace = false :=
    fun x hx => not_ws_of_isDigit (h x hx)
  have h1 : (c :: rest).dropWhile Char.isWhitespace = c :: rest :=
    dropWhile_eq_self_of_forall hws
  have h2 : (c :: rest).reverse.dropWhile Char.isWhitespace = (c :: rest).reverse :=
    dropWhile_eq_self_of_forall (fun x hx => hws x (List.mem_reverse.mp hx))
  have hc : c.isDigit := h c (List.mem_cons_self c rest)
  have hplus : ¬ (c = '+') := by rintro rfl; simp [Char.isDigit] at hc
  have hminus : ¬ (c = '-') := by rintro rfl; simp [Char.isDigit] at hc
  rw [pyInt]
  simp only [h1, h2, List.reverse_reverse]
  rw [if_neg hplus, if_neg hminus]
  exact parseDigits_all_digits c rest h

theorem mean_nonneg {metrics : List ℚ} (h : ∀ x ∈ metrics, 0 ≤ x) :
    0 ≤ mean metrics := by
  unfold mean
  split_ifs with he
  · exact le_refl 0
  · exact div_nonneg (List.sum_nonneg h) (Nat.cast_nonneg _)

theorem ledgerGet_record (l : Ledger) (name : String) (t : ℚ) :
    ledgerGet (record_scale_operation l name t) name = t := by
  simp [ledgerGet, record_scale_operation, List.lookup]

/-! ## Claim theorems -/

/-- C3 (counterexample): the claim that every string not matching
`^([0-9]+)(s|m|h|d)$` parses to 300 is false. The string `"5x"` does not
match the grammar (its unit is `x`), yet `_parse_duration` returns 5,
because `int('5')` succeeds and the unknown unit falls back to factor 1
via `units.get(unit, 1)`. -/
theorem parse_duration_unknown_unit_cex :
    matchesDurationGrammar "5x" = false ∧
      parse_duration "5x" = some 5 ∧ some (5 : ℤ) ≠ some (300 : ℤ) := by
  refine ⟨by decide, by decide, by decide⟩

/-- C3 (amended): a string of the form `digits ++ [unit]` with a
non-empty all-digit prefix parses to the prefix's decimal value times the
unit factor; and whenever Python `int` fails on the prefix (the
`ValueError` path), the result is 300. Non-matching strings with a
parseable integer prefix instead return that integer times
`units.get(unit, 1)`, and the empty string raises `IndexError`. -/
theorem parse_duration_grammar_value (s : String) (ds : List Char) (u : Char)
    (hs : s.data = ds ++ [u]) :
    (ds ≠ [] → (∀ c ∈ ds, c.isDigit) →
      parse_duration s = some (decimalVal ds * unitFactor u)) ∧
    (pyInt (String.mk ds) = none → parse_duration s = some 300) := by
  constructor
  · intro hne hd
    rw [parse_duration, hs]
    simp only [List.getLast?_concat, List.dropLast_concat]
    obtain ⟨c, rest, rfl⟩ : ∃ c rest, ds = c :: rest := by
      cases ds with
      | nil => exact absurd rfl hne
      | cons c rest => exact ⟨c, rest, rfl⟩
    rw [pyInt_all_digits c rest hd]
  · intro hfail
    rw [parse_duration, hs]
    simp only [List.getLast?_concat, List.dropLast_concat]
    rw [hfail]

/-- C3 (witness): `"30s"` matches the grammar and parses to
`30 * 1 = 30`, and `"xm"` has an unparseable prefix and yields 300. -/
theorem parse_duration_grammar_value_witness :
    parse_duration "30s" = some 30 ∧ parse_duration "xm" = some 300 := by
  constructor
  · have h := (parse_duration_grammar_value "30s" ['3', '0'] 's' rfl).1
      (by decide) (by decide)
    simpa using h
  · exact (parse_duration_grammar_value "xm" ['x'] 'm' rfl).2 (by decide)

/-- C2 (code bug): with `current = 5`, `samples = [55.0]`,
`maxCostPerReplica = 5.0`, `maxReplicas = 10`, the intended cost-up
branch computes `ceil(55/5) = 11` and caps it to 10, exactly as the claim
states. The source itself cannot produce this (or any) value: line 93 is
missing its colon, so the Python module fails to parse. This theorem
evaluates the embedding of the evident intent (the fix the spec calls
for) at the claim's input. -/
theorem cost_scale_up_capped_intended :
    calculate_desired_replicas 5 [55] ⟨"cost", 80, 5⟩ ⟨1, 10⟩ = 10 ∧
      min (11 : ℤ) 10 = 10 := by
  have hd : calculate_desired_replicas 5 [55] ⟨"cost", 80, 5⟩ ⟨1, 10⟩ =
      costAwareScaling 5 [55] ⟨"cost", 80, 5⟩ ⟨1, 10⟩ := by
    rw [calculate_desired_replicas, if_neg (by decide), if_pos rfl]
  constructor
  · rw [hd]
    norm_num [costAwareScaling, mean, truncQ]
  · norm_num

/-- C1 (counterexample): the desired replica count is not always in
`[minReplicas, maxReplicas]`. With the cost policy, `current = 100`,
`samples = [100.0]`, `maxCostPerReplica = 5.0`, `minReplicas = 1`,
`maxReplicas = 10` (so `current ≥ 0` and `1 ≤ min ≤ max` hold), the
cost-per-replica 1.0 is below `0.5 * 5.0`, and the scale-down branch
returns `floor(100 / 4.0) = 25 > maxReplicas`: that branch never caps by
`maxReplicas`. -/
theorem calculate_desired_out_of_bounds_cex :
    (0 : ℤ) ≤ 100 ∧ (1 : ℤ) ≤ 1 ∧ (1 : ℤ) ≤ 10 ∧
      calculate_desired_replicas 100 [100] ⟨"cost", 80, 5⟩ ⟨1, 10⟩ = 25 ∧
      ¬ (calculate_desired_replicas 100 [100] ⟨"cost", 80, 5⟩ ⟨1, 10⟩ ≤ 10) := by
  have hd : calculate_desired_replicas 100 [100] ⟨"cost", 80, 5⟩ ⟨1, 10⟩ =
      costAwareScaling 100 [100] ⟨"cost", 80, 5⟩ ⟨1, 10⟩ := by
    rw [calculate_desired_replicas, if_neg (by decide), if_pos rfl]
  refine ⟨by norm_num, by norm_num, by norm_num, ?_, ?_⟩ <;> rw [hd] <;>
    norm_num [costAwareScaling, mean, truncQ]

/-- C1 (amended): for the SLO policy the engine's output is always
clamped into `[minReplicas, maxReplicas]` (when `1 ≤ min ≤ max`); the
cost policy gives no such guarantee, since its scale-down branch is
uncapped above and its scale-up branch is uncapped below. -/
theorem slo_desired_within_bounds (current : ℤ) (metrics : List ℚ)
    (p : PolicyConfig) (s : ScalerConfig) (hty : p.type = "slo")
    (hcur : 0 ≤ current) (hmin : 1 ≤ s.minReplicas)
    (hmm : s.minReplicas ≤ s.maxReplicas) :
    s.minReplicas ≤ calculate_desired_replicas current metrics p s ∧
      calculate_desired_replicas current metrics p s ≤ s.maxReplicas := by
  have hcalc : calculate_desired_replicas current metrics p s =
      sloBasedScaling current metrics p s := by
    rw [calculate_desired_replicas, if_pos hty]
  rw [hcalc, sloBasedScaling]
  exact ⟨le_max_left _ _, max_le hmm (min_le_left _ _)⟩

/-- C1 (witness): a concrete SLO call whose output respects the bounds. -/
theorem slo_desired_within_bounds_witness :
    (1 : ℤ) ≤ calculate_desired_replicas 3 [100] ⟨"slo", 80, 5⟩ ⟨1, 10⟩ ∧
      calculate_desired_replicas 3 [100] ⟨"slo", 80, 5⟩ ⟨1, 10⟩ ≤ 10 :=
  slo_desired_within_bounds 3 [100] ⟨"slo", 80, 5⟩ ⟨1, 10⟩ rfl
    (by norm_num) (by norm_num) (by norm_num)

/-- C4: for a cost-policy call with `current > 0`, non-empty samples
(non-negative, as the spec's MetricSample data model requires) of mean
`m`, and `m / current < 0.5 * maxCost`, the engine returns
`max(floor(m / (0.8 * maxCost)), minReplicas)`, with no cap by
`maxReplicas`. The floor here is real floor, which on this branch (where
the quotient is non-negative) coincides with Python's `int()`
truncation. -/
theorem cost_scale_down_formula (current : ℤ) (metrics : List ℚ)
    (p : PolicyConfig) (s : ScalerConfig) (hty : p.type = "cost")
    (hcur : 0 < current) (hne : metrics ≠ [])
    (hnn : ∀ x ∈ metrics, 0 ≤ x)
    (hlow : mean metrics / (current : ℚ) < p.maxCostPerReplica * (1/2)) :
    calculate_desired_replicas current metrics p s =
      max ⌊mean metrics / (p.maxCostPerReplica * (4/5))⌋ s.minReplicas := by
  have hm : 0 ≤ mean metrics := mean_nonneg hnn
  have hcq : (0 : ℚ) < (current : ℚ) := by exact_mod_cast hcur
  have hcpr : 0 ≤ mean metrics / (current : ℚ) := div_nonneg hm hcq.le
  have hCpos : 0 < p.maxCostPerReplica := by linarith
  have hnotup : ¬ (p.maxCostPerReplica < mean metrics / (current : ℚ)) := by
    intro hup
    linarith
  have harg : 0 ≤ mean metrics / (p.maxCostPerReplica * (4/5)) :=
    div_nonneg hm (by linarith)
  have hd : calculate_desired_replicas current metrics p s =
      costAwareScaling current metrics p s := by
    rw [calculate_desired_replicas, if_neg (by rw [hty]; decide), if_pos hty]
  rw [hd, costAwareScaling]
  simp only [if_pos hcur]
  rw [if_neg hnotup, if_pos hlow, truncQ, if_pos harg]

/-- C4 (witness): `current = 11`, `samples = [10.0]`,
`maxCostPerReplica = 5.0` gives cost-per-replica `10/11 < 2.5`, so the
scale-down branch returns `max(floor(10 / 4.0), 1) = 2`. -/
theorem cost_scale_down_formula_witness :
    calculate_desired_replicas 11 [10] ⟨"cost", 80, 5⟩ ⟨1, 10⟩ = 2 := by
  have h := cost_scale_down_formula 11 [10] ⟨"cost", 80, 5⟩ ⟨1, 10⟩ rfl
    (by norm_num) (by simp) (by norm_num) (by norm_num [mean])
  rw [h]
  norm_num [mean]

/-- C5: for an SLO-policy call the engine returns
`clamp(trunc(current * ratio), minReplicas, maxReplicas)` where the mean
is 0 for empty samples, `ratio = m / sloTarget` when the target is
positive and 1 otherwise, and `trunc` is Python's toward-zero `int()`
conversion. -/
theorem slo_scaling_formula (current : ℤ) (metrics : List ℚ)
    (p : PolicyConfig) (s : ScalerConfig) (hty : p.type = "slo")
    (hcur : 0 ≤ current) :
    calculate_desired_replicas current metrics p s =
      max s.minReplicas (min s.maxReplicas
        (truncQ ((current : ℚ) *
          (if 0 < p.sloTarget then mean metrics / p.sloTarget else 1)))) := by
  rw [calculate_desired_replicas, if_pos hty, sloBasedScaling]

/-- C5 (witness): `current = 4`, `samples = [100.0]`, `sloTarget = 80`
gives `ratio = 1.25`, `trunc(4 * 1.25) = 5`, clamped into `[1, 10]`. -/
theorem slo_scaling_formula_witness :
    calculate_desired_replicas 4 [100] ⟨"slo", 80, 5⟩ ⟨1, 10⟩ = 5 := by
  have h := slo_scaling_formula 4 [100] ⟨"slo", 80, 5⟩ ⟨1, 10⟩ rfl (by norm_num)
  rw [h]
  norm_num [mean, truncQ]

/-- C6: with a non-negative `maxScaleRate` R, `apply_rate_limits` equals
the clamp of `desired` into `[current - R, current + R]`; consequently
the change is bounded by R in absolute value, and a `desired` within R of
`current` passes through unchanged. -/
theorem apply_rate_limits_clamp (current desired : ℤ) (cfg : SafetyConfig)
    (hR : 0 ≤ cfg.maxScaleRate) :
    apply_rate_limits current desired cfg =
        max (current - cfg.maxScaleRate) (min (current + cfg.maxScaleRate) desired) ∧
      |apply_rate_limits current desired cfg - current| ≤ cfg.maxScaleRate ∧
      (|desired - current| ≤ cfg.maxScaleRate →
        apply_rate_limits current desired cfg = desired) := by
  simp only [apply_rate_limits, abs_le]
  split_ifs with h1 h2 <;>
    refine ⟨by omega, by omega, fun hsm => by omega⟩

/-- C6 (witness): `apply_rate_limits(5, 10, R=2) = 7` and
`apply_rate_limits(10, 2, R=2) = 8`. -/
theorem apply_rate_limits_clamp_witness :
    apply_rate_limits 5 10 ⟨2, "5m", "5m"⟩ = 7 ∧
      apply_rate_limits 10 2 ⟨2, "5m", "5m"⟩ = 8 := by
  have h1 := (apply_rate_limits_clamp 5 10 ⟨2, "5m", "5m"⟩ (by norm_num)).1
  have h2 := (apply_rate_limits_clamp 10 2 ⟨2, "5m", "5m"⟩ (by norm_num)).1
  constructor
  · rw [h1]
    dsimp only
    omega
  · rw [h2]
    dsimp only
    omega

/-- C7: when the cooldown string for the chosen direction parses to `cd`
seconds, `can_scale` returns `True` exactly when `now - last ≥ cd`, where
`last` is the ledger entry for the key and 0 when the key is absent; it
returns `False` exactly when `now - last < cd`. -/
theorem can_scale_iff_elapsed (l : Ledger) (name : String)
    (cfg : SafetyConfig) (dir : Direction) (now : ℚ) (cd : ℤ)
    (hparse : parse_duration (cooldownFor cfg dir) = some cd) :
    (can_scale l name cfg dir now = some true ↔
        (cd : ℚ) ≤ now - ledgerGet l name) ∧
      (can_scale l name cfg dir now = some false ↔
        now - ledgerGet l name < (cd : ℚ)) := by
  have hval : can_scale l name cfg dir now =
      some (if now - ledgerGet l name < (cd : ℚ) then false else true) := by
    unfold can_scale
    rw [hparse]
  rw [hval]
  by_cases h : now - ledgerGet l name < (cd : ℚ)
  · rw [if_pos h]
    refine ⟨⟨fun hc => ?_, fun hle => ?_⟩, ⟨fun _ => h, fun _ => rfl⟩⟩
    · exact absurd hc (by simp)
    · exact absurd h (not_lt.mpr hle)
  · rw [if_neg h]
    refine ⟨⟨fun _ => not_lt.mp h, fun _ => rfl⟩, ⟨fun hc => ?_, fun hlt => ?_⟩⟩
    · exact absurd hc (by simp)
    · exact absurd hlt h

/-- C7 (witness): with `scaleUpCooldown = "30s"` and a scale recorded at
`t = 100`, `can_scale(..., up)` is `False` at `t = 120` (elapsed 20 < 30)
and `True` at `t = 131` (elapsed 31 ≥ 30). -/
theorem can_scale_iff_elapsed_witness :
    can_scale (record_scale_operation [] "web" 100) "web"
        ⟨2, "30s", "5m"⟩ Direction.up 120 = some false ∧
      can_scale (record_scale_operation [] "web" 100) "web"
        ⟨2, "30s", "5m"⟩ Direction.up 131 = some true := by
  have hld : ledgerGet (record_scale_operation [] "web" 100) "web" = 100 :=
    ledgerGet_record [] "web" 100
  constructor
  · exact (can_scale_iff_elapsed _ "web" ⟨2, "30s", "5m"⟩ Direction.up 120 30
      (by decide)).2.mpr (by rw [hld]; norm_num)
  · exact (can_scale_iff_elapsed _ "web" ⟨2, "30s", "5m"⟩ Direction.up 131 30
      (by decide)).1.mpr (by rw [hld]; norm_num)

/-- C9: after `record_scale_operation` stamps the (direction-agnostic)
ledger entry at time `t`, `can_scale` for either direction returns
`False` at every time closer to `t` than the parsed cooldown configured
for that direction, so a second mutation in the same direction cannot be
issued before the cooldown has elapsed. -/
theorem cooldown_blocks_after_record (l : Ledger) (name : String)
    (cfg : SafetyConfig) (dir : Direction) (t tNow : ℚ) (cd : ℤ)
    (hparse : parse_duration (cooldownFor cfg dir) = some cd)
    (hlt : tNow - t < (cd : ℚ)) :
    can_scale (record_scale_operation l name t) name cfg dir tNow =
      some false := by
  unfold can_scale
  rw [hparse, ledgerGet_record]
  simp only [if_pos hlt]

/-- C9 (witness): recorded at `t = 100` with `scaleUpCooldown = "30s"`,
scaling up is still blocked at `t = 110`. -/
theorem cooldown_blocks_after_record_witness :
    can_scale (record_scale_operation [] "api" 100) "api"
        ⟨2, "30s", "5m"⟩ Direction.up 110 = some false :=
  cooldown_blocks_after_record [] "api" ⟨2, "30s", "5m"⟩ Direction.up 100 110
    30 (by decide) (by norm_num)

/-- C8: in one reconcile invocation the cooldown ledger is written
(stamped with `now` for that scaler) exactly when a replica patch is
issued and succeeds; in particular it is left unchanged when the policy's
desired count equals current, when the rate-limited count equals current,
or when the patch call raises. -/
theorem reconcile_ledger_written_iff_patched (env : ReconcileEnv)
    (l : Ledger) (name : String) :
    ((reconcileScaler env l name).patched.isSome = true →
        (reconcileScaler env l name).ledger =
          record_scale_operation l name env.now) ∧
      ((reconcileScaler env l name).patched = none →
        (reconcileScaler env l name).ledger = l) ∧
      (calculate_desired_replicas (pyOr1 env.replicas) env.metrics env.policy
          env.scaler = pyOr1 env.replicas →
        (reconcileScaler env l name).patched = none) ∧
      (apply_rate_limits (pyOr1 env.replicas)
          (calculate_desired_replicas (pyOr1 env.replicas) env.metrics
            env.policy env.scaler) env.safety = pyOr1 env.replicas →
        (reconcileScaler env l name).patched = none) ∧
      (env.patchOk = false → (reconcileScaler env l name).patched = none) := by
  simp only [reconcileScaler]
  split_ifs with h1 h2 h3 h4 h5 h6 <;> simp_all

/-- C8 (witness): with a failing patch call nothing is recorded: the
result of the reconcile leaves the ledger empty and patches nothing. -/
theorem reconcile_ledger_written_iff_patched_witness :
    (reconcileScaler ⟨true, some 5, [55], ⟨"cost", 80, 5⟩, ⟨1, 10⟩,
        ⟨2, "0s", "5m"⟩, 1000, false⟩ [] "web2").patched = none ∧
      (reconcileScaler ⟨true, some 5, [55], ⟨"cost", 80, 5⟩, ⟨1, 10⟩,
        ⟨2, "0s", "5m"⟩, 1000, false⟩ [] "web2").ledger = [] := by
  have h := reconcile_ledger_written_iff_patched
    ⟨true, some 5, [55], ⟨"cost", 80, 5⟩, ⟨1, 10⟩, ⟨2, "0s", "5m"⟩, 1000,
      false⟩ [] "web2"
  exact ⟨h.2.2.2.2 rfl, h.2.1 (h.2.2.2.2 rfl)⟩

/-- C10: when the target deployment's `spec.replicas` is unset (`None`)
or 0, the reconciler proceeds with current replicas 1: `replicas or 1`
evaluates to 1, and the whole invocation behaves exactly as if the
deployment had reported 1 replica. -/
theorem replicas_zero_or_unset_read_as_one (env : ReconcileEnv)
    (l : Ledger) (name : String)
    (h : env.replicas = none ∨ env.replicas = some 0) :
    pyOr1 env.replicas = 1 ∧
      reconcileScaler env l name =
        reconcileScaler ⟨env.readOk, some 1, env.metrics, env.policy,
          env.scaler, env.safety, env.now, env.patchOk⟩ l name := by
  obtain ⟨ro, rep, ms, pc, sc, sf, now, pk⟩ := env
  simp only at h
  rcases h with h | h <;> subst h <;> exact ⟨rfl, rfl⟩

/-- C10 (witness): a concrete environment reporting `spec.replicas = 0`
is reconciled exactly like one reporting 1 replica. -/
theorem replicas_zero_or_unset_read_as_one_witness :
    pyOr1 (some 0) = 1 ∧
      reconcileScaler ⟨true, some 0, [55], ⟨"slo", 80, 5⟩, ⟨1, 10⟩,
          ⟨2, "5m", "5m"⟩, 1000, true⟩ [] "job" =
        reconcileScaler ⟨true, some 1, [55], ⟨"slo", 80, 5⟩, ⟨1, 10⟩,
          ⟨2, "5m", "5m"⟩, 1000, true⟩ [] "job" :=
  replicas_zero_or_unset_read_as_one
    ⟨true, some 0, [55], ⟨"slo", 80, 5⟩, ⟨1, 10⟩, ⟨2, "5m", "5m"⟩, 1000,
      true⟩ [] "job" (Or.inr rfl)

end GenericAutoscaler
